import Mathlib

/-!
Verification of the `config` package: a recursive binder that populates a
structured value from environment variables, deriving each variable's name
from the field's position in the structure.

The development shallowly embeds the Go source:
  - `camelToUpperSnakeCase` embeds the pure name-derivation function;
  - `Value` models the shapes `reflect` distinguishes (string, signed
    integer, bool, struct, array/slice, and a catch-all for unsupported
    kinds such as channels or floats);
  - `loadRecursive` embeds the traversal, returning the updated value
    together with an optional error (the Go code mutates in place and
    returns the first error);
  - `LoadFromEnvironment` / `MustLoadFromEnvironment` embed the two entry
    points, a panic being modelled as `Except.error`.
The environment is an association list, looked up by exact key.
-/

/-! ## Name deriver (embeds `camelToUpperSnakeCase`, src/config.go lines 95-123) -/

/-- Character model of Go `unicode.IsUpper` restricted to ASCII input. -/
def goIsUpper (c : Char) : Bool := c.isUpper

/-- Character model of Go `unicode.ToUpper` restricted to ASCII input. -/
def goToUpper (c : Char) : Char := c.toUpper

/-- String model of Go `strings.ToUpper`: upper-case every character. -/
def goStringToUpper (s : String) : String := String.mk (s.data.map goToUpper)

/-- The loop body of `camelToUpperSnakeCase`: `pos` is the position of the
next character and `upperSequence` records whether the previous character
was emitted from the upper-case branch, exactly as in the Go `for` loop. -/
def camelLoop : Nat → Bool → List Char → List Char
  | _, _, [] => []
  | pos, upperSequence, c :: cs =>
    let sep : List Char := if pos ≠ 0 && goIsUpper c && !upperSequence then ['_'] else []
    if goIsUpper c then sep ++ [c] ++ camelLoop (pos + 1) true cs
    else sep ++ [goToUpper c] ++ camelLoop (pos + 1) false cs

/-- Embedding of `camelToUpperSnakeCase(in, prefix)`: upper-case the prefix,
return it alone when the input is empty, otherwise run the loop and join
with `_` when the prefix is non-empty. -/
def camelToUpperSnakeCase (input : String) (pfx : String) : String :=
  let p := goStringToUpper pfx
  if input = "" then p
  else
    let s := String.mk (camelLoop 0 false input.data)
    if p = "" then s else p ++ "_" ++ s

/-! ## Reference definition of the deriver, written from the spec's words:
upper-case tokens joined by `_`, a separator inserted at each transition
from a non-upper-case character to an upper-case character, never inside a
run of consecutive upper-case characters. -/

/-- Spec reference, tail of the body: a separator goes before `c` exactly
when `c` is upper-case and the previous character `prev` is not. -/
def specWord (prev : Char) : List Char → List Char
  | [] => []
  | c :: cs => (if goIsUpper c && !goIsUpper prev then ['_'] else []) ++ [goToUpper c] ++ specWord c cs

/-- Spec reference, body: first character gets no separator. -/
def specBody : List Char → List Char
  | [] => []
  | c :: cs => [goToUpper c] ++ specWord c cs

/-- Spec reference for the whole deriver: empty input yields the upper-cased
prefix alone; otherwise the derived body, preceded by `PREFIX_` when the
upper-cased prefix is non-empty. -/
def specDerive (input : String) (pfx : String) : String :=
  let p := goStringToUpper pfx
  if input = "" then p
  else if p = "" then String.mk (specBody input.data)
  else p ++ "_" ++ String.mk (specBody input.data)

/-! ### Proof that the source deriver matches the spec reference -/

theorem goToUpper_of_isUpper (c : Char) (h : goIsUpper c = true) : goToUpper c = c := by
  simp only [goIsUpper, Char.isUpper, Bool.and_eq_true, decide_eq_true_eq] at h
  have h90 : c.val.toNat ≤ 90 := UInt32.toNat_le_of_le (by decide) h.2
  simp only [goToUpper, Char.toUpper, Char.toNat]
  rw [if_neg]
  intro hcon
  obtain ⟨h97, _⟩ := hcon
  omega

theorem camelLoop_eq_specWord (cs : List Char) : ∀ (prev : Char) (pos : Nat),
    camelLoop (pos + 1) (goIsUpper prev) cs = specWord prev cs := by
  induction cs with
  | nil => intro prev pos; rfl
  | cons c cs ih =>
    intro prev pos
    by_cases hc : goIsUpper c = true
    · simp only [camelLoop, specWord, hc]
      have hpos : ((pos + 1 : Nat) != 0) = true := by simp
      rw [goToUpper_of_isUpper c hc]
      have : camelLoop (pos + 1 + 1) true cs = specWord c cs := by
        have := ih c (pos + 1)
        rwa [hc] at this
      simp [hpos, this]
    · simp only [camelLoop, specWord, hc]
      have hb : goIsUpper c = false := by simpa using hc
      have : camelLoop (pos + 1 + 1) false cs = specWord c cs := by
        have := ih c (pos + 1)
        rwa [hb] at this
      simp [hb, this]

theorem camelLoop_eq_specBody (l : List Char) : camelLoop 0 false l = specBody l := by
  cases l with
  | nil => rfl
  | cons c cs =>
    by_cases hc : goIsUpper c = true
    · simp only [camelLoop, specBody, hc]
      rw [goToUpper_of_isUpper c hc]
      have : camelLoop 1 true cs = specWord c cs := by
        have := camelLoop_eq_specWord cs c 0
        rwa [hc] at this
      simp [this]
    · have hb : goIsUpper c = false := by simpa using hc
      simp only [camelLoop, specBody, hb]
      have : camelLoop 1 false cs = specWord c cs := by
        have := camelLoop_eq_specWord cs c 0
        rwa [hb] at this
      simp [this]

/-- Claim C1: the name-derivation function agrees with the spec's reference
definition on every input string and prefix (separator at each transition
from non-upper to upper, never inside an upper-case run; non-empty prefix
prepended upper-cased with `_`; empty input yields the upper-cased prefix
alone), and the five enumerated equalities hold. -/
theorem camelToUpperSnakeCase_correct :
    (∀ (s p : String), camelToUpperSnakeCase s p = specDerive s p) ∧
    camelToUpperSnakeCase "" "FOO" = "FOO" ∧
    camelToUpperSnakeCase "Foo" "" = "FOO" ∧
    camelToUpperSnakeCase "bar" "foo" = "FOO_BAR" ∧
    camelToUpperSnakeCase "FooBar" "" = "FOO_BAR" ∧
    camelToUpperSnakeCase "FooBAR" "" = "FOO_BAR" := by
  refine ⟨?_, by decide, by decide, by decide, by decide, by decide⟩
  intro s p
  unfold camelToUpperSnakeCase specDerive
  by_cases hs : s = ""
  · simp [hs]
  · simp only [hs, if_false]
    rw [camelLoop_eq_specBody]

/-! ## Environment model (collaborator: `os.LookupEnv`) -/

/-- Process environment: association list from key to value; lookup returns
the first match. -/
abbrev Env := List (String × String)

/-- Model of `os.LookupEnv`: exact-key lookup, `none` when absent. -/
def lookupEnv (env : Env) (key : String) : Option String := List.lookup key env

/-! ## Scalar parsers (embed `strconv.Atoi` and `strconv.ParseBool`) -/

/-- Digit-accumulation loop of `strconv.Atoi`: every remaining character
must be a decimal digit. -/
def atoiDigits (acc : Nat) : List Char → Option Nat
  | [] => some acc
  | c :: cs => if c.isDigit then atoiDigits (acc * 10 + (c.toNat - 48)) cs else none

/-- Model of `strconv.Atoi`: optional leading sign, then at least one
decimal digit, base 10, and the range check of `ParseInt(s, 10, 0)` on a
64-bit platform — a positive value above `2^63 - 1`, or a negative one
below `-2^63`, is an `ErrRange` failure, which the caller treats like any
other parse error. -/
def atoi (s : String) : Option Int :=
  match s.data with
  | [] => none
  | '+' :: rest =>
    match rest with
    | [] => none
    | _ =>
      match atoiDigits 0 rest with
      | none => none
      | some n => if n ≤ 9223372036854775807 then some (n : Int) else none
  | '-' :: rest =>
    match rest with
    | [] => none
    | _ =>
      match atoiDigits 0 rest with
      | none => none
      | some n => if n ≤ 9223372036854775808 then some (-(n : Int)) else none
  | l =>
    match atoiDigits 0 l with
    | none => none
    | some n => if n ≤ 9223372036854775807 then some (n : Int) else none

/-- Model of `strconv.ParseBool`: accepts exactly the conventional forms. -/
def parseBool (s : String) : Option Bool :=
  if s = "1" || s = "t" || s = "T" || s = "TRUE" || s = "true" || s = "True" then some true
  else if s = "0" || s = "f" || s = "F" || s = "FALSE" || s = "false" || s = "False" then some false
  else none

/-! ## Value model and errors -/

/-- Errors produced by `loadRecursive`. The Go code builds them with
`fmt.Errorf`; we keep the pieces (offending key, target kind, and for
coercions the wrapped failing input) structurally. -/
inductive GoError where
  | coercion (key : String) (kind : String) (cause : String)
  | unsupportedType (key : String) (kind : String)
deriving DecidableEq

/-- The signed integer kinds the switch at src/config.go line 74 accepts:
`reflect.Int`, `Int8`, `Int16`, `Int32`, `Int64`. -/
inductive IntWidth where
  | w
  | w8
  | w16
  | w32
  | w64
deriving DecidableEq

/-- Bit width of each kind; the plain Go `int` is 64 bits on the 64-bit
platforms modelled here. -/
def IntWidth.bits : IntWidth → Nat
  | .w => 64
  | .w8 => 8
  | .w16 => 16
  | .w32 => 32
  | .w64 => 64

/-- The `reflect.Kind` string of each integer kind. -/
def IntWidth.kindName : IntWidth → String
  | .w => "int"
  | .w8 => "int8"
  | .w16 => "int16"
  | .w32 => "int32"
  | .w64 => "int64"

/-- Two's-complement truncation of an integer to a signed width, as Go's
conversion `intN(x)` inside `reflect.Value.SetInt` performs it. -/
def truncInt (bits : Nat) (x : Int) : Int :=
  let m : Int := 2 ^ bits
  let r := x % m
  if r < m / 2 then r else r - m

mutual

/-- A reflected value, as `loadRecursive` distinguishes it: the three
supported scalar kinds, structs (a list of named fields, each with its
`CanSet` flag), arrays/slices, and a catch-all `unsupported` leaf carrying
the kind's name (e.g. "chan", "func", "float64", "uint", "map", "ptr"). -/
inductive Value where
  | str (s : String)
  | int (width : IntWidth) (n : Int)
  | bool (b : Bool)
  | strukt (fields : Fields)
  | seq (isArray : Bool) (elems : Elems)
  | unsupported (kind : String)

/-- The fields of a struct, in declared order. -/
inductive Fields where
  | nil
  | cons (name : String) (canSet : Bool) (v : Value) (rest : Fields)

/-- The elements of an array or slice, in order. -/
inductive Elems where
  | nil
  | cons (v : Value) (rest : Elems)

end

/-- The string `reflect.Kind` would print for a value, as used in the
unsupported-type error message. -/
def Value.kindName : Value → String
  | .str _ => "string"
  | .int width _ => width.kindName
  | .bool _ => "bool"
  | .strukt _ => "struct"
  | .seq true _ => "array"
  | .seq false _ => "slice"
  | .unsupported kind => kind

/-! ## The recursive binder (embeds `loadRecursive`, src/config.go lines 42-91) -/

/-- The leaf-node step at the end of `loadRecursive` (lines 70-89): look up
the accumulated key; when absent, leave the value unchanged and succeed;
when present, assign strings directly, parse ints (assigning through the
`SetInt` truncation to the leaf's width) and bools, failing with a coercion
error naming key and kind on a parse failure, and fail with the
unsupported-type error for every other kind. -/
def leafStep (env : Env) (val : Value) (environmentKey : String) : Value × Option GoError :=
  match lookupEnv env environmentKey with
  | none => (val, none)
  | some environmentValue =>
    match val with
    | .str _ => (.str environmentValue, none)
    | .int width _ =>
      match atoi environmentValue with
      | none => (val, some (.coercion environmentKey "int" environmentValue))
      | some n => (.int width (truncInt width.bits n), none)
    | .bool _ =>
      match parseBool environmentValue with
      | none => (val, some (.coercion environmentKey "bool" environmentValue))
      | some b => (.bool b, none)
    | v => (v, some (.unsupportedType environmentKey v.kindName))

mutual

/-- Embedding of `loadRecursive(val, environmentKey)`: structs first recurse
into each settable field with the derived key, slices/arrays recurse into
each element with the key unchanged, and then every node (composite or not)
runs the leaf step at its own key. The returned value carries the mutations
performed before the first error. -/
def loadRecursive (env : Env) : Value → String → Value × Option GoError
  | .strukt fields, environmentKey =>
    match loadFields env fields environmentKey with
    | (fields', some e) => (.strukt fields', some e)
    | (fields', none) => leafStep env (.strukt fields') environmentKey
  | .seq isArray elems, environmentKey =>
    match loadElems env elems environmentKey with
    | (elems', some e) => (.seq isArray elems', some e)
    | (elems', none) => leafStep env (.seq isArray elems') environmentKey
  | v, environmentKey => leafStep env v environmentKey

/-- The struct field loop (lines 43-56): skip non-settable fields, recurse
into settable ones with `camelToUpperSnakeCase(fieldName, environmentKey)`,
and stop at the first error, leaving the remaining fields untouched. -/
def loadFields (env : Env) : Fields → String → Fields × Option GoError
  | .nil, _ => (.nil, none)
  | .cons name canSet v rest, environmentKey =>
    if canSet then
      match loadRecursive env v (camelToUpperSnakeCase name environmentKey) with
      | (v', some e) => (.cons name canSet v' rest, some e)
      | (v', none) =>
        match loadFields env rest environmentKey with
        | (rest', r) => (.cons name canSet v' rest', r)
    else
      match loadFields env rest environmentKey with
      | (rest', r) => (.cons name canSet v rest', r)

/-- The array/slice element loop (lines 60-67): recurse into each element
with the accumulated key unchanged, stopping at the first error. -/
def loadElems (env : Env) : Elems → String → Elems × Option GoError
  | .nil, _ => (.nil, none)
  | .cons v rest, environmentKey =>
    match loadRecursive env v environmentKey with
    | (v', some e) => (.cons v' rest, some e)
    | (v', none) =>
      match loadElems env rest environmentKey with
      | (rest', r) => (.cons v' rest', r)

end

/-- Embedding of `LoadFromEnvironment(pt, prefix)`: run the traversal from
the root with the caller-supplied prefix, returning the mutated value and
the first error, if any. -/
def LoadFromEnvironment (env : Env) (v : Value) (pfx : String) : Value × Option GoError :=
  loadRecursive env v pfx

/-- Embedding of `MustLoadFromEnvironment(pt, prefix)`: same traversal, but
a returned error becomes a panic, modelled as `Except.error` carrying that
very error. -/
def MustLoadFromEnvironment (env : Env) (v : Value) (pfx : String) : Except GoError Value :=
  match loadRecursive env v pfx with
  | (_, some e) => Except.error e
  | (v', none) => Except.ok v'

example : loadRecursive [] (Value.strukt Fields.nil) "" = (Value.strukt Fields.nil, none) := rfl

example :
    loadRecursive [("FOO", "7")]
        (Value.strukt (Fields.cons "Foo" true (Value.int .w 0) Fields.nil)) ""
      = (Value.strukt (Fields.cons "Foo" true (Value.int .w 7) Fields.nil), none) := rfl

/-! ## Derived observations used by the claims -/

/-- The elements of a sequence, as a list. -/
def Elems.toList : Elems → List Value
  | .nil => []
  | .cons v rest => v :: rest.toList

/-- Elementwise image of a sequence. -/
def Elems.map (f : Value → Value) : Elems → Elems
  | .nil => .nil
  | .cons v rest => .cons (f v) (rest.map f)

mutual

/-- Every key passed to `os.LookupEnv` during a traversal of `v` at
accumulated key `key` (assuming the traversal is not aborted): settable
fields and elements contribute their subtrees' keys, and every node,
composite or not, contributes its own key last. -/
def keysOf : Value → String → List String
  | .strukt fields, environmentKey => keysOfFields fields environmentKey ++ [environmentKey]
  | .seq _ elems, environmentKey => keysOfElems elems environmentKey ++ [environmentKey]
  | _, environmentKey => [environmentKey]

/-- Keys looked up while traversing a struct's fields. -/
def keysOfFields : Fields → String → List String
  | .nil, _ => []
  | .cons name canSet v rest, environmentKey =>
    (if canSet then keysOf v (camelToUpperSnakeCase name environmentKey) else [])
      ++ keysOfFields rest environmentKey

/-- Keys looked up while traversing a sequence's elements. -/
def keysOfElems : Elems → String → List String
  | .nil, _ => []
  | .cons v rest, environmentKey => keysOf v environmentKey ++ keysOfElems rest environmentKey

end

theorem leafStep_absent (env : Env) (v : Value) (key : String)
    (h : lookupEnv env key = none) : leafStep env v key = (v, none) := by
  simp [leafStep, h]

mutual

theorem loadRecursive_absent (env : Env) : (v : Value) → (key : String) →
    (∀ k ∈ keysOf v key, lookupEnv env k = none) → loadRecursive env v key = (v, none)
  | .strukt fields, key, h => by
    have hf : ∀ k ∈ keysOfFields fields key, lookupEnv env k = none := by
      intro k hk
      exact h k (by simp [keysOf, hk])
    have hkey : lookupEnv env key = none := h key (by simp [keysOf])
    simp only [loadRecursive]
    rw [loadFields_absent env fields key hf]
    exact leafStep_absent env _ key hkey
  | .seq isArray elems, key, h => by
    have he : ∀ k ∈ keysOfElems elems key, lookupEnv env k = none := by
      intro k hk
      exact h k (by simp [keysOf, hk])
    have hkey : lookupEnv env key = none := h key (by simp [keysOf])
    simp only [loadRecursive]
    rw [loadElems_absent env elems key he]
    exact leafStep_absent env _ key hkey
  | .str s, key, h => leafStep_absent env _ key (h key (by simp [keysOf]))
  | .int width n, key, h => leafStep_absent env _ key (h key (by simp [keysOf]))
  | .bool b, key, h => leafStep_absent env _ key (h key (by simp [keysOf]))
  | .unsupported kind, key, h => leafStep_absent env _ key (h key (by simp [keysOf]))

theorem loadFields_absent (env : Env) : (fields : Fields) → (key : String) →
    (∀ k ∈ keysOfFields fields key, lookupEnv env k = none) →
    loadFields env fields key = (fields, none)
  | .nil, _, _ => rfl
  | .cons name canSet v rest, key, h => by
    have hrest : ∀ k ∈ keysOfFields rest key, lookupEnv env k = none := by
      intro k hk
      exact h k (by simp [keysOfFields, hk])
    cases canSet with
    | false =>
      simp only [loadFields, if_neg (by simp : ¬ (false = true))]
      rw [loadFields_absent env rest key hrest]
    | true =>
      have hv : ∀ k ∈ keysOf v (camelToUpperSnakeCase name key), lookupEnv env k = none := by
        intro k hk
        exact h k (by simp [keysOfFields, hk])
      simp only [loadFields, if_pos rfl]
      rw [loadRecursive_absent env v (camelToUpperSnakeCase name key) hv]
      rw [loadFields_absent env rest key hrest]
      rfl

theorem loadElems_absent (env : Env) : (elems : Elems) → (key : String) →
    (∀ k ∈ keysOfElems elems key, lookupEnv env k = none) →
    loadElems env elems key = (elems, none)
  | .nil, _, _ => rfl
  | .cons v rest, key, h => by
    have hv : ∀ k ∈ keysOf v key, lookupEnv env k = none := by
      intro k hk
      exact h k (by simp [keysOfElems, hk])
    have hrest : ∀ k ∈ keysOfElems rest key, lookupEnv env k = none := by
      intro k hk
      exact h k (by simp [keysOfElems, hk])
    simp only [loadElems]
    rw [loadRecursive_absent env v key hv]
    rw [loadElems_absent env rest key hrest]

end

theorem loadElems_shared_key (env : Env) (key : String) (f : Value → Value) :
    (elems : Elems) → (∀ v ∈ elems.toList, loadRecursive env v key = (f v, none)) →
      loadElems env elems key = (elems.map f, none)
  | .nil, _ => rfl
  | .cons v rest, h => by
    have hv : loadRecursive env v key = (f v, none) := h v (by simp [Elems.toList])
    have hrest : loadElems env rest key = (rest.map f, none) :=
      loadElems_shared_key env key f rest (fun w hw => h w (by simp [Elems.toList, hw]))
    simp only [loadElems]
    rw [hv, hrest]
    rfl

/-- The example target of claim C2: a struct with one slice-of-struct field
`Foo`, each element a struct with a string field `Bar`. -/
def sliceOfBar (b1 b2 : String) : Value :=
  .strukt (.cons "Foo" true
    (.seq false (.cons (.strukt (.cons "Bar" true (.str b1) .nil))
                 (.cons (.strukt (.cons "Bar" true (.str b2) .nil)) .nil))) .nil)

/-- Claim C2: a sequence node recurses into each element with the
accumulated key unchanged (no per-index suffix), so all elements are bound
from the same environment variable; in particular, for a struct field `Foo`
of type slice-of-`{Bar string}` with two elements and `FOO_BAR=qux` set,
bind succeeds and sets every element's `Bar` to "qux". -/
theorem seq_shared_key :
    (∀ (env : Env) (key : String) (isArray : Bool) (elems : Elems) (f : Value → Value),
       (∀ v ∈ elems.toList, loadRecursive env v key = (f v, none)) →
       loadRecursive env (.seq isArray elems) key = leafStep env (.seq isArray (elems.map f)) key) ∧
    LoadFromEnvironment [("FOO_BAR", "qux")] (sliceOfBar "a" "b") ""
      = (sliceOfBar "qux" "qux", none) := by
  constructor
  · intro env key isArray elems f h
    simp only [loadRecursive]
    rw [loadElems_shared_key env key f elems h]
  · rfl

/-- Witness for claim C2 at a concrete sequence. -/
theorem seq_shared_key_witness :
    loadRecursive [("K", "v")]
        (Value.seq false (Elems.cons (Value.str "a") (Elems.cons (Value.str "b") Elems.nil))) "K"
      = leafStep [("K", "v")]
          (Value.seq false (Elems.cons (Value.str "v") (Elems.cons (Value.str "v") Elems.nil)))
          "K" := by
  exact seq_shared_key.1 [("K", "v")] "K" false _ (fun _ => Value.str "v") (by
    intro v hv
    simp [Elems.toList] at hv
    rcases hv with rfl | rfl <;> rfl)

/-- Claim C3: when every key the traversal would look up is absent from the
environment, bind succeeds and leaves the entire target unchanged — absence
of an environment variable is never an error and defaults are preserved. -/
theorem absent_keys_preserve_defaults (env : Env) (v : Value) (key : String)
    (h : ∀ k ∈ keysOf v key, lookupEnv env k = none) :
    LoadFromEnvironment env v key = (v, none) :=
  loadRecursive_absent env v key h

/-- Witness for claim C3: a nested struct with defaults, an unrelated
environment entry, success and no change. -/
theorem absent_keys_preserve_defaults_witness :
    LoadFromEnvironment [("OTHER", "x")]
        (Value.strukt (Fields.cons "Foo" true
          (Value.strukt (Fields.cons "Bar" true (Value.str "qux") Fields.nil)) Fields.nil)) ""
      = (Value.strukt (Fields.cons "Foo" true
          (Value.strukt (Fields.cons "Bar" true (Value.str "qux") Fields.nil)) Fields.nil), none) :=
  absent_keys_preserve_defaults _ _ _ (by decide)

/-- Claim C4: integer leaves of every signed bit width with a present value
are parsed as base-10 signed integers by `strconv.Atoi` — including its
64-bit range check — and assigned on success through the `SetInt`
conversion to the leaf's width; a parse (or range) failure is a coercion
error naming the key and kind "int" and wrapping the failing input. Bool
leaves parse the conventional boolean forms, failing with a coercion error
naming the key and kind "bool" otherwise. -/
theorem int_bool_coercion :
    (∀ (env : Env) (key s : String) (width : IntWidth) (n m : Int),
       lookupEnv env key = some s → atoi s = some m →
       loadRecursive env (.int width n) key = (.int width (truncInt width.bits m), none)) ∧
    (∀ (env : Env) (key s : String) (width : IntWidth) (n : Int),
       lookupEnv env key = some s → atoi s = none →
       loadRecursive env (.int width n) key = (.int width n, some (.coercion key "int" s))) ∧
    (∀ (env : Env) (key s : String) (b c : Bool), lookupEnv env key = some s → parseBool s = some c →
       loadRecursive env (.bool b) key = (.bool c, none)) ∧
    (∀ (env : Env) (key s : String) (b : Bool), lookupEnv env key = some s → parseBool s = none →
       loadRecursive env (.bool b) key = (.bool b, some (.coercion key "bool" s))) ∧
    atoi "42" = some 42 ∧ atoi "-7" = some (-7) ∧ atoi "abc123" = none ∧ atoi "" = none ∧
    atoi "9223372036854775807" = some 9223372036854775807 ∧
    atoi "9223372036854775808" = none ∧
    atoi "-9223372036854775808" = some (-9223372036854775808) ∧
    atoi "-9223372036854775809" = none ∧
    truncInt (IntWidth.bits .w8) 300 = 44 ∧ truncInt (IntWidth.bits .w) 300 = 300 ∧
    parseBool "true" = some true ∧ parseBool "1" = some true ∧ parseBool "0" = some false ∧
    parseBool "trueish" = none := by
  refine ⟨?_, ?_, ?_, ?_, by decide, by decide, by decide, by decide,
          by decide, by decide, by decide, by decide, by decide, by decide,
          by decide, by decide, by decide, by decide⟩
  · intro env key s width n m h1 h2
    simp [loadRecursive, leafStep, h1, h2]
  · intro env key s width n h1 h2
    simp [loadRecursive, leafStep, h1, h2]
  · intro env key s b c h1 h2
    simp [loadRecursive, leafStep, h1, h2]
  · intro env key s b h1 h2
    simp [loadRecursive, leafStep, h1, h2]

/-- Witness for claim C4: concrete successes and failures for int and bool
leaves, including an out-of-range numeral failing and an int8 leaf
receiving the truncated value. -/
theorem int_bool_coercion_witness :
    loadRecursive [("FOO", "7")] (Value.int .w 0) "FOO" = (Value.int .w 7, none) ∧
    loadRecursive [("FOO", "abc123")] (Value.int .w 5) "FOO"
      = (Value.int .w 5, some (GoError.coercion "FOO" "int" "abc123")) ∧
    loadRecursive [("FOO", "9223372036854775808")] (Value.int .w 5) "FOO"
      = (Value.int .w 5, some (GoError.coercion "FOO" "int" "9223372036854775808")) ∧
    loadRecursive [("FOO", "300")] (Value.int .w8 0) "FOO" = (Value.int .w8 44, none) ∧
    loadRecursive [("FOO", "true")] (Value.bool false) "FOO" = (Value.bool true, none) ∧
    loadRecursive [("FOO", "trueish")] (Value.bool false) "FOO"
      = (Value.bool false, some (GoError.coercion "FOO" "bool" "trueish")) :=
  ⟨int_bool_coercion.1 [("FOO", "7")] "FOO" "7" .w 0 7 rfl rfl,
   int_bool_coercion.2.1 [("FOO", "abc123")] "FOO" "abc123" .w 5 rfl rfl,
   int_bool_coercion.2.1 [("FOO", "9223372036854775808")] "FOO" "9223372036854775808" .w 5 rfl rfl,
   int_bool_coercion.1 [("FOO", "300")] "FOO" "300" .w8 0 300 rfl rfl,
   int_bool_coercion.2.2.1 [("FOO", "true")] "FOO" "true" false true rfl rfl,
   int_bool_coercion.2.2.2.1 [("FOO", "trueish")] "FOO" "trueish" false rfl rfl⟩

/-- Counterexample to claim C5: an unsupported-kind leaf whose key is
absent from the environment succeeds with no error, so the failure is not
produced "regardless of whether an environment value is present". -/
theorem unsupported_absent_succeeds_cex :
    loadRecursive [] (Value.unsupported "chan") "FOO" = (Value.unsupported "chan", none) := rfl

/-- Claim C5 (amended): a leaf whose kind is outside the supported set
fails with the unsupported-type error naming the key and the encountered
kind exactly when an environment value is present for the derived key; when
the key is absent the leaf is skipped and bind succeeds. -/
theorem unsupported_error_iff_present (env : Env) (key kind : String) :
    (∀ s, lookupEnv env key = some s →
       loadRecursive env (.unsupported kind) key
         = (.unsupported kind, some (.unsupportedType key kind))) ∧
    (lookupEnv env key = none →
       loadRecursive env (.unsupported kind) key = (.unsupported kind, none)) := by
  constructor
  · intro s h
    simp [loadRecursive, leafStep, h, Value.kindName]
  · intro h
    simp [loadRecursive, leafStep, h]

/-- Witness for the amended claim C5: a channel-kinded leaf with a present
value fails; with the value absent it succeeds. -/
theorem unsupported_error_iff_present_witness :
    loadRecursive [("FOO", "bar")] (Value.unsupported "chan") "FOO"
      = (Value.unsupported "chan", some (GoError.unsupportedType "FOO" "chan")) ∧
    loadRecursive [("OTHER", "bar")] (Value.unsupported "func") "FOO"
      = (Value.unsupported "func", none) :=
  ⟨(unsupported_error_iff_present [("FOO", "bar")] "FOO" "chan").1 "bar" rfl,
   (unsupported_error_iff_present [("OTHER", "bar")] "FOO" "func").2 rfl⟩

/-- The example target of claim C6: three int fields in declared order. -/
def threeIntFields : Value :=
  .strukt (.cons "A" true (.int .w 0)
    (.cons "B" true (.int .w 0)
      (.cons "C" true (.int .w 0) .nil)))

/-- Claim C6: the first error aborts the remainder of the traversal and is
returned unchanged; fields after the failing one are left untouched, fields
already set before it keep their new values (no rollback). Concretely, with
`A=1`, `B=abc`, `C=2` set, field `A` is updated to 1, the traversal stops at
`B` with its coercion error, and `C` keeps its default. -/
theorem first_error_aborts :
    (∀ (env : Env) (key name : String) (v v' : Value) (e : GoError) (rest : Fields),
       loadRecursive env v (camelToUpperSnakeCase name key) = (v', some e) →
       loadFields env (.cons name true v rest) key = (.cons name true v' rest, some e)) ∧
    (∀ (env : Env) (key name : String) (v v' : Value) (rest rest' : Fields) (r : Option GoError),
       loadRecursive env v (camelToUpperSnakeCase name key) = (v', none) →
       loadFields env rest key = (rest', r) →
       loadFields env (.cons name true v rest) key = (.cons name true v' rest', r)) ∧
    LoadFromEnvironment [("A", "1"), ("B", "abc"), ("C", "2")] threeIntFields ""
      = (Value.strukt (.cons "A" true (.int .w 1)
          (.cons "B" true (.int .w 0)
            (.cons "C" true (.int .w 0) .nil))), some (GoError.coercion "B" "int" "abc")) := by
  refine ⟨?_, ?_, rfl⟩
  · intro env key name v v' e rest h
    simp [loadFields, h]
  · intro env key name v v' rest rest' r h1 h2
    simp [loadFields, h1, h2]

/-- Witness for claim C6: an erroring head field leaves the tail untouched,
and a successful head field keeps its new value next to the tail's result. -/
theorem first_error_aborts_witness :
    loadFields [("X", "zz")]
        (Fields.cons "X" true (Value.int .w 0) (Fields.cons "Y" true (Value.int .w 4) Fields.nil)) ""
      = (Fields.cons "X" true (Value.int .w 0) (Fields.cons "Y" true (Value.int .w 4) Fields.nil),
         some (GoError.coercion "X" "int" "zz")) ∧
    loadFields [("X", "3")]
        (Fields.cons "X" true (Value.int .w 0) (Fields.cons "Y" true (Value.int .w 4) Fields.nil)) ""
      = (Fields.cons "X" true (Value.int .w 3) (Fields.cons "Y" true (Value.int .w 4) Fields.nil),
         none) :=
  ⟨first_error_aborts.1 [("X", "zz")] "" "X" (Value.int .w 0) (Value.int .w 0)
     (GoError.coercion "X" "int" "zz") (Fields.cons "Y" true (Value.int .w 4) Fields.nil) rfl,
   first_error_aborts.2.1 [("X", "3")] "" "X" (Value.int .w 0) (Value.int .w 3)
     (Fields.cons "Y" true (Value.int .w 4) Fields.nil)
     (Fields.cons "Y" true (Value.int .w 4) Fields.nil) none rfl rfl⟩

/-- Counterexample to claim C7: an empty struct whose own accumulated key is
present in the environment does not succeed — the leaf-lookup step still
runs on the struct node itself and fails with the unsupported-type error —
so it is not the case that it succeeds "whatever the environment contains at
that node's accumulated key". -/
theorem empty_struct_present_key_fails_cex :
    loadRecursive [("FOO", "x")] (Value.strukt Fields.nil) "FOO"
      = (Value.strukt Fields.nil, some (GoError.unsupportedType "FOO" "struct")) := rfl

/-- Claim C7 (amended): a composite with no fields, or a sequence of length
0, contributes no field or element lookups and succeeds trivially provided
its own accumulated key is absent from the environment (the node itself
still performs the leaf lookup at its own key). -/
theorem empty_composites_trivial (env : Env) (key : String)
    (h : lookupEnv env key = none) :
    loadRecursive env (Value.strukt Fields.nil) key = (Value.strukt Fields.nil, none) ∧
    (∀ isArray, loadRecursive env (Value.seq isArray Elems.nil) key
       = (Value.seq isArray Elems.nil, none)) := by
  constructor
  · simp [loadRecursive, loadFields, leafStep, h]
  · intro isArray
    simp [loadRecursive, loadElems, leafStep, h]

/-- Witness for the amended claim C7: empty struct and empty slice at an
absent key, under a non-empty environment. -/
theorem empty_composites_trivial_witness :
    loadRecursive [("OTHER", "x")] (Value.strukt Fields.nil) "FOO"
      = (Value.strukt Fields.nil, none) ∧
    loadRecursive [("OTHER", "x")] (Value.seq false Elems.nil) "FOO"
      = (Value.seq false Elems.nil, none) :=
  ⟨(empty_composites_trivial [("OTHER", "x")] "FOO" rfl).1,
   (empty_composites_trivial [("OTHER", "x")] "FOO" rfl).2 false⟩

/-- Claim C8: `MustLoadFromEnvironment` performs the identical algorithm to
`LoadFromEnvironment`: it panics carrying exactly the error
`LoadFromEnvironment` would return, precisely when the latter returns an
error, and otherwise returns normally with the identical final target
state. -/
theorem mustLoad_equiv_load (env : Env) (v : Value) (pfx : String) :
    (∀ e, MustLoadFromEnvironment env v pfx = Except.error e
       ↔ (LoadFromEnvironment env v pfx).2 = some e) ∧
    (∀ w, MustLoadFromEnvironment env v pfx = Except.ok w
       ↔ LoadFromEnvironment env v pfx = (w, none)) := by
  rcases hload : loadRecursive env v pfx with ⟨v', r⟩
  cases r with
  | none =>
    constructor
    · intro e
      simp [MustLoadFromEnvironment, LoadFromEnvironment, hload]
    · intro w
      simp [MustLoadFromEnvironment, LoadFromEnvironment, hload, eq_comm]
  | some e0 =>
    constructor
    · intro e
      simp [MustLoadFromEnvironment, LoadFromEnvironment, hload]
    · intro w
      simp [MustLoadFromEnvironment, LoadFromEnvironment, hload]

/-- Witness for claim C8: an int root with a non-parseable value makes the
panicking entry point abort with the very coercion error the fallible entry
point returns. -/
theorem mustLoad_equiv_load_witness :
    MustLoadFromEnvironment [("FOO", "bar")] (Value.int .w 0) "FOO"
      = Except.error (GoError.coercion "FOO" "int" "bar") :=
  ((mustLoad_equiv_load [("FOO", "bar")] (Value.int .w 0) "FOO").1
    (GoError.coercion "FOO" "int" "bar")).mpr rfl

/-- The example target of claim C9: a struct with one struct field `Foo`
holding a string field `Bar`. -/
def nestedFooBar (b : String) : Value :=
  .strukt (.cons "Foo" true (.strukt (.cons "Bar" true (.str b) .nil)) .nil)

/-- Claim C9: the leaf-lookup step applies to every node, composite ones
included — when a struct or sequence node's accumulated key is itself
present in the environment, bind first recurses into (and possibly mutates)
the node's fields or elements and then fails with the unsupported-type
error naming that key and the composite kind. -/
theorem composite_leaf_lookup :
    (∀ (env : Env) (key s : String) (fields fields' : Fields),
       lookupEnv env key = some s → loadFields env fields key = (fields', none) →
       loadRecursive env (.strukt fields) key
         = (.strukt fields', some (.unsupportedType key "struct"))) ∧
    (∀ (env : Env) (key s : String) (isArray : Bool) (elems elems' : Elems),
       lookupEnv env key = some s → loadElems env elems key = (elems', none) →
       loadRecursive env (.seq isArray elems) key
         = (.seq isArray elems',
            some (.unsupportedType key (if isArray then "array" else "slice")))) ∧
    LoadFromEnvironment [("FOO", "oops"), ("FOO_BAR", "baz")] (nestedFooBar "d") ""
      = (nestedFooBar "baz", some (GoError.unsupportedType "FOO" "struct")) := by
  refine ⟨?_, ?_, rfl⟩
  · intro env key s fields fields' h1 h2
    simp [loadRecursive, h2, leafStep, h1, Value.kindName]
  · intro env key s isArray elems elems' h1 h2
    cases isArray <;> simp [loadRecursive, h2, leafStep, h1, Value.kindName]

/-- Witness for claim C9: an empty struct and an empty slice whose own keys
are present in the environment. -/
theorem composite_leaf_lookup_witness :
    loadRecursive [("K", "x")] (Value.strukt Fields.nil) "K"
      = (Value.strukt Fields.nil, some (GoError.unsupportedType "K" "struct")) ∧
    loadRecursive [("K", "x")] (Value.seq false Elems.nil) "K"
      = (Value.seq false Elems.nil, some (GoError.unsupportedType "K" "slice")) :=
  ⟨composite_leaf_lookup.1 [("K", "x")] "K" "x" Fields.nil Fields.nil rfl rfl,
   composite_leaf_lookup.2.1 [("K", "x")] "K" "x" false Elems.nil Elems.nil rfl rfl⟩

/-- Is the value a composite (struct, array or slice) node? -/
def Value.isComposite : Value → Bool
  | .strukt _ => true
  | .seq _ _ => true
  | _ => false

/-- Claim C10: when the root target is a bare scalar, the caller-supplied
prefix is used verbatim as the environment key for the single lookup, never
passed through name derivation or upper-casing: a lower-case prefix matches
only a lower-case variable name. -/
theorem scalar_root_uses_verbatim_key :
    (∀ (env : Env) (p : String) (v : Value), v.isComposite = false →
       LoadFromEnvironment env v p = leafStep env v p) ∧
    LoadFromEnvironment [("foo", "v")] (Value.str "") "foo" = (Value.str "v", none) ∧
    LoadFromEnvironment [("foo", "v")] (Value.str "d") "FOO" = (Value.str "d", none) := by
  refine ⟨?_, rfl, rfl⟩
  intro env p v h
  cases v with
  | strukt fields => simp [Value.isComposite] at h
  | seq isArray elems => simp [Value.isComposite] at h
  | str s => rfl
  | int width n => rfl
  | bool b => rfl
  | unsupported kind => rfl

/-- Witness for claim C10: a scalar root looked up at the verbatim key. -/
theorem scalar_root_uses_verbatim_key_witness :
    LoadFromEnvironment [] (Value.int .w 3) "k" = leafStep [] (Value.int .w 3) "k" :=
  scalar_root_uses_verbatim_key.1 [] "k" (Value.int .w 3) rfl
